import Mathlib

/-!
# Verification of the stagehand crawler core

Shallow embedding of the rule-based action classifier
(`src/lib/crawler/ActionAnalyzer.ts`) and the inline crawl frontier of the
run harness (`src/unnamed/part_000`, `main`, lines 203-340), together with
proofs of the specified properties.

Modelling conventions:
* JavaScript strings are Lean `String`s; `s.includes(t)` is substring
  containment (`strContainsSub`), `s.toLowerCase()` is `strToLower`.
* `Record<string, string>` attribute maps are association lists; an absent
  key behaves like JS `undefined` (optional chaining yields a non-match).
* Element coordinates are modelled as exact integers (document pixels).
  Every constant in the heuristics is an integer, and JS doubles are exact
  on integers, so every embedded comparison agrees with the source on
  integer coordinates.
* `findNearbyElements` sorts by `Math.sqrt(dx^2+dy^2)`; square root is
  strictly monotone, so sorting by the squared distance with a stable sort
  yields the same order (JS `Array.prototype.sort` is stable per ES2019).
* Confidence literals (0.9, 0.7, 0.8) are the rationals 9/10, 7/10, 8/10;
  the source only ever stores and returns them, never computes with them.
-/

/-- `pat` occurs as a contiguous substring of `s` (JS `String.includes`). -/
def strContainsSubAux (pat : List Char) : List Char → Bool
  | [] => pat.isEmpty
  | c :: cs => pat.isPrefixOf (c :: cs) || strContainsSubAux pat cs

/-- JS `s.includes(pat)`. -/
def strContainsSub (s pat : String) : Bool :=
  strContainsSubAux pat.toList s.toList

/-- JS `s.toLowerCase()` (over the character list, so that it reduces in
the kernel). -/
def strToLower (s : String) : String :=
  ⟨s.data.map Char.toLower⟩

/-- Document coordinates of an element (`position: {x, y}` in
`ElementInfo`, `PageCrawler.ts`). -/
structure Pos where
  x : Int
  y : Int
deriving DecidableEq, Repr

/-- `ElementInfo` from `PageCrawler.ts`: one extracted DOM node. -/
structure ElementInfo where
  selector : String
  description : String
  type : String
  attributes : List (String × String)
  text : String
  isInteractive : Bool
  position : Pos
deriving DecidableEq, Repr

/-- `CrawlResult` from `PageCrawler.ts` (the timestamp plays no role in
classification and is omitted). -/
structure CrawlResult where
  url : String
  elements : List ElementInfo
deriving DecidableEq, Repr

/-- `UserAction` from `ActionAnalyzer.ts`. -/
structure UserAction where
  type : String
  name : String
  description : String
  elements : List ElementInfo
  url : String
  confidence : Rat
deriving DecidableEq, Repr

/-- Attribute lookup: JS `el.attributes[k]`, `none` for an absent key. -/
def getAttr (el : ElementInfo) (k : String) : Option String :=
  (el.attributes.find? (fun p => p.1 == k)).map Prod.snd

/-- JS `el.attributes.k === v` (an absent attribute never matches). -/
def attrIs (el : ElementInfo) (k v : String) : Bool :=
  match getAttr el k with
  | some w => w == v
  | none => false

/-- JS `el.attributes.k?.toLowerCase().includes(sub)`; `undefined` is falsy. -/
def attrContainsLower (el : ElementInfo) (k sub : String) : Bool :=
  match getAttr el k with
  | some w => strContainsSub (strToLower w) sub
  | none => false

/-- JS `el.text.toLowerCase().includes(sub)`. -/
def textContains (el : ElementInfo) (sub : String) : Bool :=
  strContainsSub (strToLower el.text) sub

/-- JS `el.description.toLowerCase().includes(sub)`. -/
def descContains (el : ElementInfo) (sub : String) : Bool :=
  strContainsSub (strToLower el.description) sub

/-- JS `Math.abs` on integers. -/
def jsAbs (q : Int) : Int := if q < 0 then -q else q

/-- Squared Euclidean distance between positions.  The source computes
`Math.sqrt` of this value (`calculateDistance`); the ordering induced is
identical because square root is strictly monotone. -/
def dist2 (p1 p2 : Pos) : Int :=
  (p2.x - p1.x) * (p2.x - p1.x) + (p2.y - p1.y) * (p2.y - p1.y)

/-- Stable insertion of `e` into a list sorted by distance to `ref`
(ties keep earlier candidates first, like JS stable sort). -/
def insertByDist (ref : Pos) (e : ElementInfo) : List ElementInfo → List ElementInfo
  | [] => [e]
  | x :: xs =>
    if dist2 ref e.position ≤ dist2 ref x.position then e :: x :: xs
    else x :: insertByDist ref e xs

/-- `findNearbyElements(reference, candidates)` from `ActionAnalyzer.ts`:
the candidates sorted by ascending distance to the reference element
(stable sort, modelled as stable insertion sort over squared distance). -/
def findNearbyElements (reference : ElementInfo) (candidates : List ElementInfo) :
    List ElementInfo :=
  candidates.foldr (insertByDist reference.position) []

/-- Username/email input filter of `identifyLoginForms`
(`ActionAnalyzer.ts` lines 65-83). -/
def isUsernameInput (el : ElementInfo) : Bool :=
  el.type == "input" &&
  (attrIs el "type" "text" || attrIs el "type" "email") &&
  (attrContainsLower el "name" "user" ||
   attrContainsLower el "name" "email" ||
   attrContainsLower el "name" "login" ||
   attrContainsLower el "id" "user" ||
   attrContainsLower el "id" "email" ||
   attrContainsLower el "id" "login" ||
   attrContainsLower el "placeholder" "user" ||
   attrContainsLower el "placeholder" "email" ||
   descContains el "username" ||
   descContains el "email")

/-- Password input filter of `identifyLoginForms`
(`ActionAnalyzer.ts` lines 86-95). -/
def isPasswordInput (el : ElementInfo) : Bool :=
  el.type == "input" &&
  (attrIs el "type" "password" ||
   attrContainsLower el "name" "pass" ||
   attrContainsLower el "id" "pass" ||
   attrContainsLower el "placeholder" "pass" ||
   descContains el "password")

/-- Submit button filter of `identifyLoginForms`
(`ActionAnalyzer.ts` lines 98-109). -/
def isLoginSubmit (el : ElementInfo) : Bool :=
  (el.type == "button" || el.type == "input") &&
  (attrIs el "type" "submit" ||
   textContains el "log in" ||
   textContains el "login" ||
   textContains el "sign in" ||
   textContains el "signin" ||
   descContains el "login" ||
   descContains el "sign in")

/-- The login action emitted when username, password and submit candidates
are all found (`ActionAnalyzer.ts` lines 128-135). -/
def loginActionFull (url : String) (u p s : ElementInfo) : UserAction :=
  { type := "login", name := "Login",
    description := "Login form with username/email and password fields",
    elements := [u, p, s], url := url, confidence := 9/10 }

/-- The login action emitted without a submit candidate
(`ActionAnalyzer.ts` lines 138-145). -/
def loginActionPartial (url : String) (u p : ElementInfo) : UserAction :=
  { type := "login", name := "Login",
    description := "Partial login form with username/email and password fields",
    elements := [u, p], url := url, confidence := 7/10 }

/-- Loop body of `identifyLoginForms` for one username candidate
(`ActionAnalyzer.ts` lines 114-148). -/
def loginActionFor (url : String) (passwordInputs submitButtons : List ElementInfo)
    (usernameInput : ElementInfo) : List UserAction :=
  match findNearbyElements usernameInput passwordInputs with
  | [] => []
  | p :: _ =>
    match findNearbyElements p submitButtons with
    | s :: _ => [loginActionFull url usernameInput p s]
    | [] => [loginActionPartial url usernameInput p]

/-- `identifyLoginForms` (`ActionAnalyzer.ts` lines 60-152). -/
def identifyLoginForms (crawlResult : CrawlResult) : List UserAction :=
  let usernameInputs := crawlResult.elements.filter isUsernameInput
  let passwordInputs := crawlResult.elements.filter isPasswordInput
  let submitButtons := crawlResult.elements.filter isLoginSubmit
  if usernameInputs.length > 0 ∧ passwordInputs.length > 0 then
    usernameInputs.flatMap (loginActionFor crawlResult.url passwordInputs submitButtons)
  else []

/-- Search input filter of `identifySearchInterfaces`
(`ActionAnalyzer.ts` lines 162-171). -/
def isSearchInput (el : ElementInfo) : Bool :=
  el.type == "input" &&
  (attrIs el "type" "search" ||
   attrContainsLower el "name" "search" ||
   attrContainsLower el "id" "search" ||
   attrContainsLower el "placeholder" "search" ||
   descContains el "search")

/-- Search button filter of `identifySearchInterfaces`
(`ActionAnalyzer.ts` lines 174-183). -/
def isSearchButton (el : ElementInfo) : Bool :=
  (el.type == "button" || el.type == "input") &&
  (attrIs el "type" "submit" ||
   textContains el "search" ||
   descContains el "search" ||
   attrContainsLower el "class" "search")

/-- The search action with both an input and a button
(`ActionAnalyzer.ts` lines 191-198). -/
def searchActionPair (url : String) (input button : ElementInfo) : UserAction :=
  { type := "search", name := "Search",
    description := "Search interface with input field and search button",
    elements := [input, button], url := url, confidence := 9/10 }

/-- The search action with only an input (`ActionAnalyzer.ts` lines 201-208). -/
def searchActionSolo (url : String) (input : ElementInfo) : UserAction :=
  { type := "search", name := "Search",
    description := "Search input field",
    elements := [input], url := url, confidence := 7/10 }

/-- Loop body of `identifySearchInterfaces` for one search input
(`ActionAnalyzer.ts` lines 186-210). -/
def searchActionFor (url : String) (searchButtons : List ElementInfo)
    (searchInput : ElementInfo) : List UserAction :=
  match findNearbyElements searchInput searchButtons with
  | b :: _ => [searchActionPair url searchInput b]
  | [] => [searchActionSolo url searchInput]

/-- `identifySearchInterfaces` (`ActionAnalyzer.ts` lines 157-213). -/
def identifySearchInterfaces (crawlResult : CrawlResult) : List UserAction :=
  let searchInputs := crawlResult.elements.filter isSearchInput
  let searchButtons := crawlResult.elements.filter isSearchButton
  searchInputs.flatMap (searchActionFor crawlResult.url searchButtons)

/-- Navigation container filter of `identifyNavigationMenus`
(`ActionAnalyzer.ts` lines 223-230). -/
def isNavElement (el : ElementInfo) : Bool :=
  el.type == "nav" ||
  attrIs el "role" "navigation" ||
  attrContainsLower el "class" "nav" ||
  attrContainsLower el "id" "nav" ||
  attrContainsLower el "class" "menu" ||
  attrContainsLower el "id" "menu"

/-- Link filter of `identifyNavigationMenus` (`ActionAnalyzer.ts` line 233):
anchor tag with a truthy `href` (the empty string is falsy in JS). -/
def isLink (el : ElementInfo) : Bool :=
  el.type == "a" &&
  (match getAttr el "href" with
   | some h => h != ""
   | none => false)

/-- Containment test of navigation pass 1 (`ActionAnalyzer.ts` lines 238-243). -/
def inNavBox (nav link : ElementInfo) : Bool :=
  decide (nav.position.y ≤ link.position.y) &&
  decide (link.position.y ≤ nav.position.y + 100) &&
  decide (nav.position.x ≤ link.position.x) &&
  decide (link.position.x ≤ nav.position.x + 1000)

/-- The pass-1 navigation action for one container and its links
(`ActionAnalyzer.ts` lines 246-253). -/
def navContainerAction (url : String) (navElement : ElementInfo)
    (navLinks : List ElementInfo) : UserAction :=
  { type := "navigation", name := "Navigation Menu",
    description := "Navigation menu with " ++ toString navLinks.length ++ " links",
    elements := navElement :: navLinks, url := url, confidence := 8/10 }

/-- Pass 1 of `identifyNavigationMenus` (`ActionAnalyzer.ts` lines 236-255). -/
def navPass1 (crawlResult : CrawlResult) : List UserAction :=
  let navElements := crawlResult.elements.filter isNavElement
  let links := crawlResult.elements.filter isLink
  navElements.flatMap fun navElement =>
    let navLinks := links.filter (inNavBox navElement)
    if navLinks.length ≥ 3 then
      [navContainerAction crawlResult.url navElement navLinks]
    else []

/-- Adds one link to the greedy vertical groups
(`ActionAnalyzer.ts` lines 262-276): the link joins the first group whose
first member is within 20px vertically, else starts a new group at the end. -/
def addLinkToGroups (link : ElementInfo) :
    List (List ElementInfo) → List (List ElementInfo)
  | [] => [[link]]
  | g :: gs =>
    match g with
    | [] => g :: addLinkToGroups link gs
    | firstLink :: _ =>
      if jsAbs (link.position.y - firstLink.position.y) < 20 then
        (g ++ [link]) :: gs
      else g :: addLinkToGroups link gs

/-- The greedy single-link vertical grouping of navigation pass 2. -/
def linkGroups (links : List ElementInfo) : List (List ElementInfo) :=
  links.foldl (fun gs l => addLinkToGroups l gs) []

/-- The pass-2 navigation action emitted for one link group
(`ActionAnalyzer.ts` lines 281-288). -/
def navGroupAction (url : String) (group : List ElementInfo) : UserAction :=
  { type := "navigation", name := "Navigation Menu",
    description := "Horizontal navigation menu with " ++ toString group.length ++ " links",
    elements := group, url := url, confidence := 7/10 }

/-- Pass 2 of `identifyNavigationMenus` (`ActionAnalyzer.ts` lines 258-291). -/
def navPass2 (crawlResult : CrawlResult) : List UserAction :=
  let links := crawlResult.elements.filter isLink
  (linkGroups links).flatMap fun group =>
    if group.length ≥ 3 then [navGroupAction crawlResult.url group] else []

/-- `identifyNavigationMenus` (`ActionAnalyzer.ts` lines 218-294): pass 2
runs only when pass 1 produced no actions. -/
def identifyNavigationMenus (crawlResult : CrawlResult) : List UserAction :=
  let pass1 := navPass1 crawlResult
  if pass1.length = 0 then navPass2 crawlResult else pass1

/-- Input filter of `identifyForms` (`ActionAnalyzer.ts` lines 307-311). -/
def isFormInput (el : ElementInfo) : Bool :=
  el.type == "input" || el.type == "textarea" || el.type == "select"

/-- Submit button filter of `identifyForms` (`ActionAnalyzer.ts` lines 314-323). -/
def isFormSubmit (el : ElementInfo) : Bool :=
  (el.type == "button" || el.type == "input") &&
  (attrIs el "type" "submit" ||
   textContains el "submit" ||
   textContains el "send" ||
   textContains el "register" ||
   textContains el "sign up")

/-- Containment test of `identifyForms` (`ActionAnalyzer.ts` lines 328-341). -/
def inFormBox (form el : ElementInfo) : Bool :=
  decide (form.position.y ≤ el.position.y) &&
  decide (el.position.y ≤ form.position.y + 500) &&
  decide (form.position.x ≤ el.position.x) &&
  decide (el.position.x ≤ form.position.x + 1000)

/-- `hasNameField` check (`ActionAnalyzer.ts` lines 350-354). -/
def hasNameField (formInputs : List ElementInfo) : Bool :=
  formInputs.any fun input =>
    attrContainsLower input "name" "name" ||
    attrContainsLower input "id" "name" ||
    attrContainsLower input "placeholder" "name"

/-- `hasEmailField` check (`ActionAnalyzer.ts` lines 356-361). -/
def hasEmailField (formInputs : List ElementInfo) : Bool :=
  formInputs.any fun input =>
    attrIs input "type" "email" ||
    attrContainsLower input "name" "email" ||
    attrContainsLower input "id" "email" ||
    attrContainsLower input "placeholder" "email"

/-- `hasPasswordField` check (`ActionAnalyzer.ts` lines 363-368). -/
def hasPasswordField (formInputs : List ElementInfo) : Bool :=
  formInputs.any fun input =>
    attrIs input "type" "password" ||
    attrContainsLower input "name" "password" ||
    attrContainsLower input "id" "password" ||
    attrContainsLower input "placeholder" "password"

/-- `hasMessageField` check (`ActionAnalyzer.ts` lines 371-376). -/
def hasMessageField (formInputs : List ElementInfo) : Bool :=
  formInputs.any fun input =>
    input.type == "textarea" ||
    attrContainsLower input "name" "message" ||
    attrContainsLower input "id" "message" ||
    attrContainsLower input "placeholder" "message"

/-- `hasSubjectField` check (`ActionAnalyzer.ts` lines 378-382). -/
def hasSubjectField (formInputs : List ElementInfo) : Bool :=
  formInputs.any fun input =>
    attrContainsLower input "name" "subject" ||
    attrContainsLower input "id" "subject" ||
    attrContainsLower input "placeholder" "subject"

/-- The form sub-classification (`ActionAnalyzer.ts` lines 344-397):
type, name and confidence determined by the field composition. -/
def classifyForm (formInputs : List ElementInfo) : String × String × Rat :=
  if hasNameField formInputs && hasEmailField formInputs &&
      hasPasswordField formInputs then
    ("registration", "Registration Form", 9/10)
  else if hasNameField formInputs && hasEmailField formInputs &&
      hasMessageField formInputs then
    ("contact", "Contact Form", 9/10)
  else if hasEmailField formInputs && hasSubjectField formInputs &&
      hasMessageField formInputs then
    ("contact", "Contact Form", 9/10)
  else ("form", "Form", 7/10)

/-- The form action emitted for one form element
(`ActionAnalyzer.ts` lines 399-406). -/
def formAction (url : String) (formElement : ElementInfo)
    (formInputs formSubmitButtons : List ElementInfo) : UserAction :=
  { type := (classifyForm formInputs).1, name := (classifyForm formInputs).2.1,
    description := (classifyForm formInputs).2.1 ++ " with " ++
      toString formInputs.length ++ " input fields",
    elements := formElement :: (formInputs ++ formSubmitButtons), url := url,
    confidence := (classifyForm formInputs).2.2 }

/-- Loop body of `identifyForms` for one form element
(`ActionAnalyzer.ts` lines 326-408). -/
def formActionFor (url : String) (inputElements submitButtons : List ElementInfo)
    (formElement : ElementInfo) : List UserAction :=
  let formInputs := inputElements.filter (inFormBox formElement)
  let formSubmitButtons := submitButtons.filter (inFormBox formElement)
  if formInputs.length ≥ 2 ∧ formSubmitButtons.length > 0 then
    [formAction url formElement formInputs formSubmitButtons]
  else []

/-- `identifyForms` (`ActionAnalyzer.ts` lines 299-411). -/
def identifyForms (crawlResult : CrawlResult) : List UserAction :=
  let formElements := crawlResult.elements.filter (fun el => el.type == "form")
  let inputElements := crawlResult.elements.filter isFormInput
  let submitButtons := crawlResult.elements.filter isFormSubmit
  formElements.flatMap (formActionFor crawlResult.url inputElements submitButtons)

/-- `analyzeActions` (`ActionAnalyzer.ts` lines 23-55): the four detectors
run in order and their outputs are concatenated. -/
def analyzeActions (crawlResult : CrawlResult) : List UserAction :=
  identifyLoginForms crawlResult ++
  identifySearchInterfaces crawlResult ++
  identifyNavigationMenus crawlResult ++
  identifyForms crawlResult

/-!
## The crawl frontier (`src/unnamed/part_000`, `main`, lines 203-340)

URL parsing (`new URL(link, url)`) is performed by Node's WHATWG `URL`
class; we take the parsed absolute URL as input (a link whose resolution
throws is skipped by the source before any frontier state is touched, so
such links simply do not appear in the modelled link lists).  The parser
lowercases the hostname but preserves the case of the pathname. -/

/-- A parsed absolute URL as exposed by Node's `URL`: `protocol` includes
the trailing colon (e.g. `"https:"`), `hostname` is lowercase, `pathname`
starts with `/` with its case preserved; `search` and `hash` carry the
query string and fragment. -/
structure ParsedUrl where
  protocol : String
  hostname : String
  pathname : String
  search : String
  hash : String
deriving DecidableEq, Repr

/-- `cleanUrl` (`part_000` line 298): scheme + host + path; the query
string (`search`) and the fragment (`hash`) are dropped. -/
def cleanUrl (u : ParsedUrl) : String :=
  u.protocol ++ "//" ++ u.hostname ++ u.pathname

/-- The excluded-URL predicate (`part_000` lines 301-302): a case-sensitive
substring check of the clean URL against the four path fragments. -/
def isExcludedUrl (s : String) : Bool :=
  strContainsSub s "/login" || strContainsSub s "/logout" ||
  strContainsSub s "/signin" || strContainsSub s "/signout"

/-- Frontier state: the FIFO work queue (`urlQueue`) and the visited set
(`crawledUrls`, a JS `Set` modelled as a duplicate-free list). -/
structure FrontierState where
  urlQueue : List String
  crawledUrls : List String
deriving DecidableEq, Repr

/-- One link-enqueue attempt (`part_000` lines 281-314): reject on foreign
host, normalize to `cleanUrl`, reject excluded URLs, reject URLs already
crawled or already queued, otherwise append to the queue. -/
def processLink (baseHostname : String) (st : FrontierState) (link : ParsedUrl) :
    FrontierState :=
  if link.hostname ≠ baseHostname then st
  else
    let c := cleanUrl link
    if isExcludedUrl c then st
    else if c ∈ st.crawledUrls ∨ c ∈ st.urlQueue then st
    else { st with urlQueue := st.urlQueue ++ [c] }

/-- The crawl loop (`part_000` lines 209-340), state portion only: while
the queue is non-empty and fewer than `maxUrlsToCrawl` URLs have been
crawled, shift the head, skip it if already crawled, otherwise mark it
crawled and enqueue every link discovered on it (`links url`, the parsed
outbound anchors of that page).  `fuel` bounds the number of iterations;
the source loop terminates for the same structural reasons but the model
makes this explicit. -/
def crawlLoop (links : String → List ParsedUrl) (baseHostname : String)
    (maxUrlsToCrawl : Nat) : Nat → FrontierState → FrontierState
  | 0, st => st
  | fuel + 1, st =>
    match st.urlQueue with
    | [] => st
    | url :: rest =>
      if st.crawledUrls.length < maxUrlsToCrawl then
        if url ∈ st.crawledUrls then
          crawlLoop links baseHostname maxUrlsToCrawl fuel
            { st with urlQueue := rest }
        else
          let st1 : FrontierState :=
            { urlQueue := rest, crawledUrls := st.crawledUrls ++ [url] }
          crawlLoop links baseHostname maxUrlsToCrawl fuel
            ((links url).foldl (processLink baseHostname) st1)
      else st

/-- The inner `formInputs` list of `identifyForms` for one form element:
inputs of the crawl result falling inside the form containment box. -/
def formInputsOf (crawlResult : CrawlResult) (formElement : ElementInfo) :
    List ElementInfo :=
  (crawlResult.elements.filter isFormInput).filter (inFormBox formElement)

/-- The inner `formSubmitButtons` list of `identifyForms` for one form
element. -/
def formSubmitsOf (crawlResult : CrawlResult) (formElement : ElementInfo) :
    List ElementInfo :=
  (crawlResult.elements.filter isFormSubmit).filter (inFormBox formElement)

/-- The username-candidate condition as the specification sentence states
it: an input of type `text` or `email` such that any of the substrings
`user`, `email`, `login` occurs case-insensitively in any of its name,
id, placeholder or description.  Stated from the spec wording, to be
compared against the source predicate `isUsernameInput`. -/
def specUsernameCandidate (el : ElementInfo) : Bool :=
  el.type == "input" &&
  (attrIs el "type" "text" || attrIs el "type" "email") &&
  (["user", "email", "login"].any fun k =>
    attrContainsLower el "name" k || attrContainsLower el "id" k ||
    attrContainsLower el "placeholder" k ||
    strContainsSub (strToLower el.description) k)

/-- The vocabulary part of the username filter as the source actually
checks it: `user`/`email`/`login` against name and id, `user`/`email`
against the placeholder, `username`/`email` against the description. -/
def amendedUsernameVocab (el : ElementInfo) : Bool :=
  (["user", "email", "login"].any fun k =>
    attrContainsLower el "name" k || attrContainsLower el "id" k) ||
  (["user", "email"].any fun k => attrContainsLower el "placeholder" k) ||
  (["username", "email"].any fun k => strContainsSub (strToLower el.description) k)

/-!
## Concrete fixtures for witnesses and counterexamples
-/

/-- Builds a concrete element; selector and interactivity are irrelevant
to every detector. -/
def mkEl (ty : String) (attrs : List (String × String)) (txt desc : String)
    (x y : Int) : ElementInfo :=
  { selector := "#el", description := desc, type := ty, attributes := attrs,
    text := txt, isInteractive := true, position := { x := x, y := y } }

/-- A username input fixture. -/
def elUserW : ElementInfo := mkEl "input" [("type", "text"), ("name", "username")] "" "" 0 0

/-- A password input fixture. -/
def elPassW : ElementInfo := mkEl "input" [("type", "password")] "" "" 0 30

/-- A login submit button fixture. -/
def elSubmitW : ElementInfo := mkEl "button" [] "Log In" "" 0 60

/-- A crawl result holding a complete login form. -/
def crLoginW : CrawlResult :=
  { url := "https://app.example/", elements := [elUserW, elPassW, elSubmitW] }

/-- An input that is simultaneously a search input and a search button
(its description contains `search`). -/
def elSearchW : ElementInfo := mkEl "input" [("type", "text")] "" "Search box" 10 10

/-- A crawl result holding only the dual-role search element. -/
def crSearchW : CrawlResult :=
  { url := "https://app.example/find", elements := [elSearchW] }

/-- An anchor fixture for the navigation detector. -/
def mkAnchor (href : String) (x y : Int) : ElementInfo :=
  mkEl "a" [("href", href)] "" "" x y

/-- Four anchors within a 15px vertical spread and no nav-like container. -/
def crNav4 : CrawlResult :=
  { url := "https://app.example/",
    elements := [mkAnchor "/a" 0 100, mkAnchor "/b" 50 105,
                 mkAnchor "/c" 100 110, mkAnchor "/d" 150 115] }

/-- Two anchors in one vertical cluster and no nav-like container. -/
def crNav2 : CrawlResult :=
  { url := "https://app.example/",
    elements := [mkAnchor "/a" 0 100, mkAnchor "/b" 50 105] }

/-- A registration form fixture: the form element at the origin. -/
def elFormW : ElementInfo := mkEl "form" [] "" "" 0 0

/-- Name input of the registration fixture. -/
def elNameW : ElementInfo := mkEl "input" [("type", "text"), ("name", "fullname")] "" "" 10 40

/-- Email input of the registration fixture. -/
def elEmailW : ElementInfo := mkEl "input" [("type", "email"), ("name", "email")] "" "" 10 80

/-- Password input of the registration fixture. -/
def elPwdW : ElementInfo := mkEl "input" [("type", "password"), ("name", "password")] "" "" 10 120

/-- Sign-up button of the registration fixture. -/
def elSignUpW : ElementInfo := mkEl "button" [] "Sign Up" "" 10 160

/-- The registration-form crawl result: form, name, email and password
inputs plus a "Sign Up" button, all inside the form containment box. -/
def crRegW : CrawlResult :=
  { url := "https://app.example/register",
    elements := [elFormW, elNameW, elEmailW, elPwdW, elSignUpW] }

/-- A text input whose placeholder is `login` and nothing else matches:
the spec's username vocabulary accepts it, the source filter does not. -/
def elC8 : ElementInfo := mkEl "input" [("type", "text"), ("placeholder", "login")] "" "" 0 0

/-- A crawl result holding only `elC8`. -/
def crC8 : CrawlResult := { url := "https://app.example/", elements := [elC8] }

/-- A same-host link with path `/Login` (capital L), no query, no fragment. -/
def linkC9 : ParsedUrl :=
  { protocol := "https:", hostname := "www.testdummy.ai", pathname := "/Login",
    search := "", hash := "" }

/-- A same-host link `/login?x=1#y`. -/
def linkLoginQF : ParsedUrl :=
  { protocol := "https:", hostname := "www.testdummy.ai", pathname := "/login",
    search := "?x=1", hash := "#y" }

/-- The empty frontier state. -/
def stEmptyW : FrontierState := { urlQueue := [], crawledUrls := [] }

/-- A frontier state with two pending URLs and nothing crawled. -/
def stTwoW : FrontierState :=
  { urlQueue := ["https://www.testdummy.ai/a", "https://www.testdummy.ai/b"],
    crawledUrls := [] }

-- ### Basic facts about the stable sort

theorem mem_insertByDist {ref : Pos} {e x : ElementInfo} {l : List ElementInfo} :
    x ∈ insertByDist ref e l ↔ x = e ∨ x ∈ l := by
  induction l with
  | nil => simp [insertByDist]
  | cons a as ih =>
    simp only [insertByDist]
    split
    · simp
    · simp [ih]; tauto

theorem mem_findNearbyElements {reference : ElementInfo} {candidates : List ElementInfo}
    {x : ElementInfo} :
    x ∈ findNearbyElements reference candidates ↔ x ∈ candidates := by
  unfold findNearbyElements
  induction candidates with
  | nil => simp
  | cons a as ih => simp [mem_insertByDist, ih]

theorem insertByDist_ne_nil (ref : Pos) (e : ElementInfo) (l : List ElementInfo) :
    insertByDist ref e l ≠ [] := by
  cases l with
  | nil => simp [insertByDist]
  | cons a as =>
    simp only [insertByDist]
    split <;> simp

theorem findNearbyElements_eq_nil_iff {reference : ElementInfo}
    {candidates : List ElementInfo} :
    findNearbyElements reference candidates = [] ↔ candidates = [] := by
  cases candidates with
  | nil => simp [findNearbyElements]
  | cons a as =>
    simp only [findNearbyElements, List.foldr_cons]
    constructor
    · intro h; exact absurd h (insertByDist_ne_nil _ _ _)
    · intro h; cases h

theorem flatMap_ne_nil_of_mem {α β : Type} {l : List α} {f : α → List β} {x : α}
    (hx : x ∈ l) (hf : f x ≠ []) : l.flatMap f ≠ [] := by
  intro h
  rcases List.exists_mem_of_ne_nil (f x) hf with ⟨b, hb⟩
  have hmem : b ∈ l.flatMap f := List.mem_flatMap.mpr ⟨x, hx, hb⟩
  rw [h] at hmem
  exact absurd hmem (List.not_mem_nil b)

theorem loginActionFor_ne_nil {url : String} {P S : List ElementInfo}
    {u : ElementInfo} (hP : P ≠ []) : loginActionFor url P S u ≠ [] := by
  intro hcontra
  unfold loginActionFor at hcontra
  split at hcontra
  · rename_i heq
    exact hP (findNearbyElements_eq_nil_iff.mp heq)
  · split at hcontra <;> simp at hcontra

theorem loginActionFor_mem {url : String} {P S : List ElementInfo}
    {u : ElementInfo} {a : UserAction} (ha : a ∈ loginActionFor url P S u) :
    (S ≠ [] → a.confidence = 9/10 ∧ a.elements.length = 3) ∧
    (S = [] → a.confidence = 7/10 ∧ a.elements.length = 2) := by
  unfold loginActionFor at ha
  split at ha
  · exact absurd ha (List.not_mem_nil a)
  · rename_i p rest hp
    split at ha
    · rename_i s rest2 hs
      have hS : S ≠ [] := by
        intro hSnil
        subst hSnil
        rw [findNearbyElements_eq_nil_iff.mpr rfl] at hs
        cases hs
      have haeq : a = loginActionFull url u p s := by simpa using ha
      subst haeq
      exact ⟨fun _ => ⟨rfl, rfl⟩, fun hc => absurd hc hS⟩
    · rename_i hs
      have hS : S = [] := findNearbyElements_eq_nil_iff.mp hs
      have haeq : a = loginActionPartial url u p := by simpa using ha
      subst haeq
      exact ⟨fun hc => absurd hS hc, fun _ => ⟨rfl, rfl⟩⟩

/-- C1: the login detector emits at least one action iff both the
username-candidate set and the password-candidate set are non-empty, and
every emitted action has confidence 0.9 with exactly 3 elements when the
submit-candidate set is non-empty, confidence 0.7 with exactly 2 elements
when it is empty. -/
theorem login_detector_emission (cr : CrawlResult) :
    (identifyLoginForms cr ≠ [] ↔
      (cr.elements.filter isUsernameInput ≠ [] ∧
       cr.elements.filter isPasswordInput ≠ [])) ∧
    (∀ a ∈ identifyLoginForms cr,
      (cr.elements.filter isLoginSubmit ≠ [] →
        a.confidence = 9/10 ∧ a.elements.length = 3) ∧
      (cr.elements.filter isLoginSubmit = [] →
        a.confidence = 7/10 ∧ a.elements.length = 2)) := by
  constructor
  · by_cases hU : cr.elements.filter isUsernameInput = []
    · simp [identifyLoginForms, hU]
    · by_cases hP : cr.elements.filter isPasswordInput = []
      · simp [identifyLoginForms, hP]
      · have hUl : 0 < (cr.elements.filter isUsernameInput).length :=
          List.length_pos.mpr hU
        have hPl : 0 < (cr.elements.filter isPasswordInput).length :=
          List.length_pos.mpr hP
        rcases List.exists_mem_of_ne_nil _ hU with ⟨u, hu⟩
        have hne : (cr.elements.filter isUsernameInput).flatMap
            (loginActionFor cr.url (cr.elements.filter isPasswordInput)
              (cr.elements.filter isLoginSubmit)) ≠ [] :=
          flatMap_ne_nil_of_mem hu (loginActionFor_ne_nil hP)
        simp only [identifyLoginForms, if_pos (And.intro hUl hPl)]
        exact ⟨fun _ => ⟨hU, hP⟩, fun _ => hne⟩
  · intro a ha
    simp only [identifyLoginForms] at ha
    split at ha
    · rcases List.mem_flatMap.mp ha with ⟨u, _, hau⟩
      exact loginActionFor_mem hau
    · exact absurd ha (List.not_mem_nil a)

/-- Witness for C1 at the concrete login form `crLoginW`. -/
theorem login_detector_emission_witness :
    identifyLoginForms crLoginW ≠ [] ∧
    ∀ a ∈ identifyLoginForms crLoginW,
      a.confidence = 9/10 ∧ a.elements.length = 3 := by
  have h := login_detector_emission crLoginW
  exact ⟨h.1.mpr ⟨by decide, by decide⟩, fun a ha => (h.2 a ha).1 (by decide)⟩

/-- C6: the rule-based classifier is deterministic: two runs on equal
crawl results yield identical action lists.  In the embedding
`analyzeActions` is a pure function of the crawl result — the source
classifier reads no randomness and no external state (its only side
channel is diagnostic logging, which does not feed back into the output) —
so equal inputs give equal outputs. -/
theorem analyzeActions_deterministic (cr1 cr2 : CrawlResult) (h : cr1 = cr2) :
    analyzeActions cr1 = analyzeActions cr2 := by rw [h]

/-- Witness for C6: re-running the classifier on `crSearchW` reproduces
its output. -/
theorem analyzeActions_deterministic_witness :
    analyzeActions crSearchW = analyzeActions crSearchW :=
  analyzeActions_deterministic crSearchW crSearchW rfl

/-- C10: when exactly one element is both the only search-input candidate
and the only search-button candidate, the search detector emits one
action of confidence 0.9 whose elements are that element twice; the
0.7 input-only branch is not taken. -/
theorem search_dual_role_element (cr : CrawlResult) (e : ElementInfo)
    (hin : cr.elements.filter isSearchInput = [e])
    (hbtn : cr.elements.filter isSearchButton = [e]) :
    identifySearchInterfaces cr = [searchActionPair cr.url e e] ∧
    (searchActionPair cr.url e e).elements = [e, e] ∧
    (searchActionPair cr.url e e).confidence = 9/10 := by
  refine ⟨?_, rfl, rfl⟩
  simp only [identifySearchInterfaces, hin, hbtn]
  rfl

/-- Witness for C10 at the dual-role element `elSearchW`. -/
theorem search_dual_role_element_witness :
    identifySearchInterfaces crSearchW =
      [searchActionPair crSearchW.url elSearchW elSearchW] :=
  (search_dual_role_element crSearchW elSearchW (by decide) (by decide)).1

-- ### Frontier lemmas

theorem processLink_queue_cases (b : String) (st : FrontierState) (l : ParsedUrl) :
    processLink b st l = st ∨
    (processLink b st l = { st with urlQueue := st.urlQueue ++ [cleanUrl l] } ∧
     cleanUrl l ∉ st.urlQueue ∧ l.hostname = b ∧
     isExcludedUrl (cleanUrl l) = false) := by
  simp only [processLink]
  split
  · exact Or.inl rfl
  · rename_i hb
    split
    · exact Or.inl rfl
    · rename_i hex
      split
      · exact Or.inl rfl
      · rename_i hmem
        refine Or.inr ⟨rfl, fun hc => hmem (Or.inr hc), not_not.mp hb, ?_⟩
        simpa using hex

theorem foldl_processLink_nodup (b : String) (ls : List ParsedUrl)
    (st : FrontierState) (h : st.urlQueue.Nodup) :
    ((ls.foldl (processLink b) st).urlQueue).Nodup := by
  induction ls generalizing st with
  | nil => exact h
  | cons l ls ih =>
    rw [List.foldl_cons]
    apply ih
    rcases processLink_queue_cases b st l with hc | ⟨hc, hnot, _, _⟩
    · rw [hc]; exact h
    · rw [hc]
      simp [List.nodup_append, h, hnot]

/-- C2: link-enqueue attempts keep the pending queue free of duplicate
normalized URLs, a link whose host differs from the origin host is a
no-op, normalization keeps scheme+host+path while dropping query string
and fragment, and `/login?x=1#y` normalizes to `/login` and is rejected
by the excluded-path filter. -/
theorem frontier_enqueue_invariants :
    (∀ (b : String) (st : FrontierState) (ls : List ParsedUrl),
        st.urlQueue.Nodup →
        ((ls.foldl (processLink b) st).urlQueue).Nodup) ∧
    (∀ (b : String) (st : FrontierState) (l : ParsedUrl),
        l.hostname ≠ b → processLink b st l = st) ∧
    (∀ u : ParsedUrl, cleanUrl u = u.protocol ++ "//" ++ u.hostname ++ u.pathname) ∧
    cleanUrl linkLoginQF = "https://www.testdummy.ai/login" ∧
    (∀ (b : String) (st : FrontierState), processLink b st linkLoginQF = st) := by
  refine ⟨fun b st ls => foldl_processLink_nodup b ls st, ?_, fun _ => rfl,
    by decide, ?_⟩
  · intro b st l h
    simp only [processLink]
    rw [if_pos h]
  · intro b st
    have hx : isExcludedUrl (cleanUrl linkLoginQF) = true := by decide
    simp [processLink, hx]

/-- Witness for C2: two identical enqueue attempts of `/Login` leave the
queue duplicate-free, a foreign-host link is a no-op, and `/login?x=1#y`
is rejected. -/
theorem frontier_enqueue_invariants_witness :
    (([linkC9, linkC9].foldl (processLink "www.testdummy.ai") stEmptyW).urlQueue).Nodup ∧
    processLink "www.testdummy.ai" stTwoW
      { protocol := "https:", hostname := "other.example", pathname := "/x",
        search := "", hash := "" } = stTwoW ∧
    processLink "www.testdummy.ai" stEmptyW linkLoginQF = stEmptyW := by
  have h := frontier_enqueue_invariants
  exact ⟨h.1 _ _ _ (by decide), h.2.1 _ _ _ (by decide), h.2.2.2.2 _ _⟩

/-- C9 counterexample: the clean URL of `/Login` contains `login`
case-insensitively, yet `processLink` enqueues it — the excluded-path
filter of the source is case-sensitive, so the claimed rejection does not
happen. -/
theorem frontier_excluded_case_cex :
    strContainsSub (strToLower (cleanUrl linkC9)) "login" = true ∧
    processLink "www.testdummy.ai" stEmptyW linkC9 =
      { urlQueue := ["https://www.testdummy.ai/Login"], crawledUrls := [] } :=
  ⟨by decide, by decide⟩

/-- C9 (amended): the excluded-path predicate is case-sensitive: enqueue
leaves the frontier unchanged for every URL whose clean form contains one
of the literal substrings `/login`, `/logout`, `/signin`, `/signout`;
the differently-cased `/Login` is not excluded while `/login` is. -/
theorem frontier_excluded_rejected :
    (∀ (b : String) (st : FrontierState) (l : ParsedUrl),
        isExcludedUrl (cleanUrl l) = true → processLink b st l = st) ∧
    isExcludedUrl "https://www.testdummy.ai/Login" = false ∧
    isExcludedUrl "https://www.testdummy.ai/login" = true := by
  refine ⟨?_, by decide, by decide⟩
  intro b st l h
  simp [processLink, h]

/-- Witness for C9 (amended) at the lowercase login link. -/
theorem frontier_excluded_rejected_witness :
    processLink "www.testdummy.ai" stTwoW linkLoginQF = stTwoW :=
  frontier_excluded_rejected.1 "www.testdummy.ai" stTwoW linkLoginQF (by decide)

-- ### Crawl-loop lemmas

theorem processLink_crawledUrls (b : String) (st : FrontierState) (l : ParsedUrl) :
    (processLink b st l).crawledUrls = st.crawledUrls := by
  simp only [processLink]
  split
  · rfl
  · split
    · rfl
    · split <;> rfl

theorem foldl_processLink_crawledUrls (b : String) (ls : List ParsedUrl)
    (st : FrontierState) :
    ((ls.foldl (processLink b) st).crawledUrls) = st.crawledUrls := by
  induction ls generalizing st with
  | nil => rfl
  | cons l ls ih => rw [List.foldl_cons, ih, processLink_crawledUrls]

/-- C3: across any run of the crawl loop the visited set stays
duplicate-free and its size never exceeds the page budget
`maxUrlsToCrawl`; with the initially empty visited set of the source this
bounds the number of distinct URLs dequeued and processed, however many
URLs get discovered and enqueued. -/
theorem crawlLoop_budget (links : String → List ParsedUrl) (b : String)
    (m fuel : Nat) (st : FrontierState)
    (hlen : st.crawledUrls.length ≤ m) (hnd : st.crawledUrls.Nodup) :
    ((crawlLoop links b m fuel st).crawledUrls.length ≤ m) ∧
    (crawlLoop links b m fuel st).crawledUrls.Nodup := by
  induction fuel generalizing st with
  | zero => exact ⟨hlen, hnd⟩
  | succ fuel ih =>
    simp only [crawlLoop]
    split
    · exact ⟨hlen, hnd⟩
    · rename_i url rest
      split
      · rename_i hlt
        split
        · exact ih _ hlen hnd
        · rename_i hmem
          apply ih
          · rw [foldl_processLink_crawledUrls]
            simp only [List.length_append, List.length_singleton]
            omega
          · rw [foldl_processLink_crawledUrls]
            simp [List.nodup_append, hnd, hmem]
      · exact ⟨hlen, hnd⟩

/-- Witness for C3: a drain of a two-element queue under budget 1 visits
at most one URL. -/
theorem crawlLoop_budget_witness :
    ((crawlLoop (fun _ => []) "www.testdummy.ai" 1 5 stTwoW).crawledUrls.length ≤ 1) ∧
    (crawlLoop (fun _ => []) "www.testdummy.ai" 1 5 stTwoW).crawledUrls.Nodup :=
  crawlLoop_budget (fun _ => []) "www.testdummy.ai" 1 5 stTwoW (by decide) (by decide)

-- ### Soundness of the detectors: elements come from the crawl result

theorem login_sound {cr : CrawlResult} {a : UserAction}
    (ha : a ∈ identifyLoginForms cr) :
    a.elements ≠ [] ∧ ∀ e ∈ a.elements, e ∈ cr.elements := by
  simp only [identifyLoginForms] at ha
  split at ha
  · rcases List.mem_flatMap.mp ha with ⟨u, hu, hau⟩
    have huel : u ∈ cr.elements := List.mem_of_mem_filter hu
    unfold loginActionFor at hau
    split at hau
    · exact absurd hau (List.not_mem_nil a)
    · rename_i p rest hp
      have hpnear : p ∈ findNearbyElements u (cr.elements.filter isPasswordInput) := by
        rw [hp]; exact List.mem_cons_self _ _
      have hpel : p ∈ cr.elements :=
        List.mem_of_mem_filter (mem_findNearbyElements.mp hpnear)
      split at hau
      · rename_i s rest2 hs
        have hsnear : s ∈ findNearbyElements p (cr.elements.filter isLoginSubmit) := by
          rw [hs]; exact List.mem_cons_self _ _
        have hsel : s ∈ cr.elements :=
          List.mem_of_mem_filter (mem_findNearbyElements.mp hsnear)
        have haeq : a = loginActionFull cr.url u p s := by simpa using hau
        subst haeq
        refine ⟨by simp [loginActionFull], ?_⟩
        intro e he
        simp [loginActionFull] at he
        rcases he with rfl | rfl | rfl
        exacts [huel, hpel, hsel]
      · have haeq : a = loginActionPartial cr.url u p := by simpa using hau
        subst haeq
        refine ⟨by simp [loginActionPartial], ?_⟩
        intro e he
        simp [loginActionPartial] at he
        rcases he with rfl | rfl
        exacts [huel, hpel]
  · exact absurd ha (List.not_mem_nil a)

theorem search_sound {cr : CrawlResult} {a : UserAction}
    (ha : a ∈ identifySearchInterfaces cr) :
    a.elements ≠ [] ∧ ∀ e ∈ a.elements, e ∈ cr.elements := by
  simp only [identifySearchInterfaces] at ha
  rcases List.mem_flatMap.mp ha with ⟨i, hi, hai⟩
  have hiel : i ∈ cr.elements := List.mem_of_mem_filter hi
  unfold searchActionFor at hai
  split at hai
  · rename_i b rest hb
    have hbnear : b ∈ findNearbyElements i (cr.elements.filter isSearchButton) := by
      rw [hb]; exact List.mem_cons_self _ _
    have hbel : b ∈ cr.elements :=
      List.mem_of_mem_filter (mem_findNearbyElements.mp hbnear)
    have haeq : a = searchActionPair cr.url i b := by simpa using hai
    subst haeq
    refine ⟨by simp [searchActionPair], ?_⟩
    intro e he
    simp [searchActionPair] at he
    rcases he with rfl | rfl
    exacts [hiel, hbel]
  · have haeq : a = searchActionSolo cr.url i := by simpa using hai
    subst haeq
    refine ⟨by simp [searchActionSolo], ?_⟩
    intro e he
    simp [searchActionSolo] at he
    subst he
    exact hiel

theorem addLinkToGroups_mem {link : ElementInfo} {gs : List (List ElementInfo)} :
    ∀ {g : List ElementInfo}, g ∈ addLinkToGroups link gs →
      ∀ e ∈ g, e = link ∨ ∃ g0 ∈ gs, e ∈ g0 := by
  induction gs with
  | nil =>
    intro g hg e he
    simp [addLinkToGroups] at hg
    subst hg
    simp at he
    exact Or.inl he
  | cons g1 gs1 ih =>
    intro g hg e he
    cases g1 with
    | nil =>
      simp only [addLinkToGroups] at hg
      rcases List.mem_cons.mp hg with rfl | hg2
      · simp at he
      · rcases ih hg2 e he with h | ⟨g0, h1, h2⟩
        · exact Or.inl h
        · exact Or.inr ⟨g0, List.mem_cons_of_mem _ h1, h2⟩
    | cons firstLink t =>
      simp only [addLinkToGroups] at hg
      split at hg
      · rcases List.mem_cons.mp hg with rfl | hg2
        · rcases List.mem_append.mp he with h | h
          · exact Or.inr ⟨firstLink :: t, List.mem_cons_self _ _, h⟩
          · simp at h
            exact Or.inl h
        · exact Or.inr ⟨g, List.mem_cons_of_mem _ hg2, he⟩
      · rcases List.mem_cons.mp hg with rfl | hg2
        · exact Or.inr ⟨firstLink :: t, List.mem_cons_self _ _, he⟩
        · rcases ih hg2 e he with h | ⟨g0, h1, h2⟩
          · exact Or.inl h
          · exact Or.inr ⟨g0, List.mem_cons_of_mem _ h1, h2⟩

theorem linkGroups_mem_aux (ls : List ElementInfo) :
    ∀ (init : List (List ElementInfo)) (g : List ElementInfo),
      g ∈ ls.foldl (fun gs l => addLinkToGroups l gs) init →
      ∀ e ∈ g, (∃ g0 ∈ init, e ∈ g0) ∨ e ∈ ls := by
  induction ls with
  | nil =>
    intro init g hg e he
    exact Or.inl ⟨g, hg, he⟩
  | cons l ls ih =>
    intro init g hg e he
    rw [List.foldl_cons] at hg
    rcases ih _ g hg e he with ⟨g0, hg0, heg0⟩ | hl
    · rcases addLinkToGroups_mem hg0 e heg0 with rfl | ⟨g1, hg1, heg1⟩
      · exact Or.inr (List.mem_cons_self _ _)
      · exact Or.inl ⟨g1, hg1, heg1⟩
    · exact Or.inr (List.mem_cons_of_mem _ hl)

theorem mem_linkGroups {links : List ElementInfo} {g : List ElementInfo}
    (hg : g ∈ linkGroups links) : ∀ e ∈ g, e ∈ links := by
  intro e he
  rcases linkGroups_mem_aux links [] g hg e he with ⟨g0, hg0, _⟩ | h
  · simp at hg0
  · exact h

theorem nav_sound {cr : CrawlResult} {a : UserAction}
    (ha : a ∈ identifyNavigationMenus cr) :
    a.elements ≠ [] ∧ ∀ e ∈ a.elements, e ∈ cr.elements := by
  simp only [identifyNavigationMenus] at ha
  split at ha
  · simp only [navPass2] at ha
    rcases List.mem_flatMap.mp ha with ⟨g, hg, hag⟩
    split at hag
    · rename_i hlen
      have haeq : a = navGroupAction cr.url g := by simpa using hag
      subst haeq
      constructor
      · have hpos : 0 < g.length := lt_of_lt_of_le (by norm_num) hlen
        simpa [navGroupAction] using List.ne_nil_of_length_pos hpos
      · intro e he
        simp only [navGroupAction] at he
        exact List.mem_of_mem_filter (mem_linkGroups hg e he)
    · exact absurd hag (List.not_mem_nil a)
  · simp only [navPass1] at ha
    rcases List.mem_flatMap.mp ha with ⟨nav, hnav, hanav⟩
    split at hanav
    · have haeq : a = navContainerAction cr.url nav
          ((cr.elements.filter isLink).filter (inNavBox nav)) := by
        simpa using hanav
      subst haeq
      refine ⟨by simp [navContainerAction], ?_⟩
      intro e he
      simp only [navContainerAction, List.mem_cons] at he
      rcases he with rfl | he
      · exact List.mem_of_mem_filter hnav
      · exact List.mem_of_mem_filter (List.mem_of_mem_filter he)
    · exact absurd hanav (List.not_mem_nil a)

theorem forms_sound {cr : CrawlResult} {a : UserAction}
    (ha : a ∈ identifyForms cr) :
    a.elements ≠ [] ∧ ∀ e ∈ a.elements, e ∈ cr.elements := by
  simp only [identifyForms] at ha
  rcases List.mem_flatMap.mp ha with ⟨f, hf, haf⟩
  simp only [formActionFor] at haf
  split at haf
  · have haeq : a = formAction cr.url f
        ((cr.elements.filter isFormInput).filter (inFormBox f))
        ((cr.elements.filter isFormSubmit).filter (inFormBox f)) := by
      simpa using haf
    subst haeq
    refine ⟨by simp [formAction], ?_⟩
    intro e he
    simp only [formAction, List.mem_cons, List.mem_append] at he
    rcases he with rfl | he | he
    · exact List.mem_of_mem_filter hf
    · exact List.mem_of_mem_filter (List.mem_of_mem_filter he)
    · exact List.mem_of_mem_filter (List.mem_of_mem_filter he)
  · exact absurd haf (List.not_mem_nil a)

/-- C7: every action produced by the rule-based classifier has a
non-empty elements list, and each of its elements is a member of the
input crawl result's elements. -/
theorem analyzeActions_elements_sound (cr : CrawlResult) (a : UserAction)
    (ha : a ∈ analyzeActions cr) :
    a.elements ≠ [] ∧ ∀ e ∈ a.elements, e ∈ cr.elements := by
  simp only [analyzeActions, List.mem_append] at ha
  rcases ha with ((h | h) | h) | h
  · exact login_sound h
  · exact search_sound h
  · exact nav_sound h
  · exact forms_sound h

/-- Witness for C7 at the search action of `crSearchW`. -/
theorem analyzeActions_elements_sound_witness :
    (searchActionPair crSearchW.url elSearchW elSearchW).elements ≠ [] ∧
    ∀ e ∈ (searchActionPair crSearchW.url elSearchW elSearchW).elements,
      e ∈ crSearchW.elements :=
  analyzeActions_elements_sound crSearchW _ (by
    have h : analyzeActions crSearchW =
        [searchActionPair crSearchW.url elSearchW elSearchW] := rfl
    rw [h]
    exact List.mem_singleton_self _)

theorem flatMap_ite_eq_filter_map {α β : Type} (f : α → β) (p : α → Prop)
    [DecidablePred p] (ls : List α) :
    (ls.flatMap fun x => if p x then [f x] else []) =
      (ls.filter fun x => decide (p x)).map f := by
  induction ls with
  | nil => rfl
  | cons a as ih => by_cases h : p a <;> simp [h, ih]

/-- C4: when no element matches the navigation-container vocabulary the
detector falls back to greedy vertical grouping (join the first group
whose first member is within 20px vertically) and emits exactly one
confidence-0.7 action per group of at least 3 anchors, containing all of
that group's anchors; concretely, 4 anchors within a 15px vertical spread
yield one 0.7 action with all four anchors, and 2 anchors yield none. -/
theorem navigation_fallback_grouping :
    (∀ cr : CrawlResult, (∀ el ∈ cr.elements, isNavElement el = false) →
        identifyNavigationMenus cr =
          ((linkGroups (cr.elements.filter isLink)).filter
              (fun g => decide (g.length ≥ 3))).map (navGroupAction cr.url)) ∧
    identifyNavigationMenus crNav4 =
      [{ type := "navigation", name := "Navigation Menu",
         description := "Horizontal navigation menu with 4 links",
         elements := [mkAnchor "/a" 0 100, mkAnchor "/b" 50 105,
                      mkAnchor "/c" 100 110, mkAnchor "/d" 150 115],
         url := "https://app.example/", confidence := 7/10 }] ∧
    identifyNavigationMenus crNav2 = [] := by
  refine ⟨?_, rfl, rfl⟩
  intro cr hnav
  have h1 : cr.elements.filter isNavElement = [] :=
    List.filter_eq_nil_iff.mpr (fun a ha => by simp [hnav a ha])
  have hp1 : navPass1 cr = [] := by simp [navPass1, h1]
  simp only [identifyNavigationMenus, hp1, List.length_nil, if_pos rfl]
  simp only [navPass2]
  exact flatMap_ite_eq_filter_map (navGroupAction cr.url)
    (fun g => g.length ≥ 3) _

/-- Witness for C4 at the four clustered anchors of `crNav4`. -/
theorem navigation_fallback_grouping_witness :
    identifyNavigationMenus crNav4 =
      ((linkGroups (crNav4.elements.filter isLink)).filter
          (fun g => decide (g.length ≥ 3))).map (navGroupAction crNav4.url) :=
  navigation_fallback_grouping.1 crNav4 (by decide)

/-- C5: a crawl result whose only form-tagged element has, inside its
containment box, at least two inputs exhibiting name, email and password
signatures and at least one submit-like button, makes the form detector
emit exactly one action of type `registration` with confidence 0.9 whose
elements include the form element, all those inputs and those buttons. -/
theorem registration_form_detector (cr : CrawlResult) (f : ElementInfo)
    (hform : cr.elements.filter (fun el => el.type == "form") = [f])
    (hlen : 2 ≤ (formInputsOf cr f).length)
    (hsub : formSubmitsOf cr f ≠ [])
    (hname : hasNameField (formInputsOf cr f) = true)
    (hemail : hasEmailField (formInputsOf cr f) = true)
    (hpass : hasPasswordField (formInputsOf cr f) = true) :
    (identifyForms cr).length = 1 ∧
    ∀ a ∈ identifyForms cr,
      a.type = "registration" ∧ a.confidence = 9/10 ∧
      f ∈ a.elements ∧ (∀ e ∈ formInputsOf cr f, e ∈ a.elements) ∧
      (∀ e ∈ formSubmitsOf cr f, e ∈ a.elements) := by
  simp only [formInputsOf, formSubmitsOf] at hlen hsub hname hemail hpass ⊢
  have hcf : classifyForm ((cr.elements.filter isFormInput).filter (inFormBox f)) =
      ("registration", "Registration Form", 9/10) := by
    simp only [classifyForm, hname, hemail, hpass]
    rfl
  have hid : identifyForms cr = [formAction cr.url f
      ((cr.elements.filter isFormInput).filter (inFormBox f))
      ((cr.elements.filter isFormSubmit).filter (inFormBox f))] := by
    simp only [identifyForms, hform, List.flatMap_cons, List.flatMap_nil,
      List.append_nil, formActionFor]
    rw [if_pos ⟨hlen, List.length_pos.mpr hsub⟩]
  rw [hid]
  refine ⟨rfl, ?_⟩
  intro a ha
  have haeq : a = formAction cr.url f
      ((cr.elements.filter isFormInput).filter (inFormBox f))
      ((cr.elements.filter isFormSubmit).filter (inFormBox f)) := by
    simpa using ha
  subst haeq
  refine ⟨?_, ?_, ?_, ?_, ?_⟩
  · show (formAction _ _ _ _).type = "registration"
    simp only [formAction]
    rw [hcf]
  · show (formAction _ _ _ _).confidence = 9/10
    simp only [formAction]
    rw [hcf]
  · simp [formAction]
  · intro e he
    simp only [formAction, List.mem_cons, List.mem_append]
    exact Or.inr (Or.inl he)
  · intro e he
    simp only [formAction, List.mem_cons, List.mem_append]
    exact Or.inr (Or.inr he)

/-- Witness for C5 at the concrete registration form `crRegW`. -/
theorem registration_form_detector_witness :
    (identifyForms crRegW).length = 1 ∧
    ∀ a ∈ identifyForms crRegW,
      a.type = "registration" ∧ a.confidence = 9/10 ∧
      elFormW ∈ a.elements ∧
      (∀ e ∈ formInputsOf crRegW elFormW, e ∈ a.elements) ∧
      (∀ e ∈ formSubmitsOf crRegW elFormW, e ∈ a.elements) :=
  registration_form_detector crRegW elFormW (by decide) (by decide) (by decide)
    (by decide) (by decide) (by decide)

/-- C8 counterexample: `elC8` is a text input whose placeholder contains
`login`, so the claimed vocabulary (`user`/`email`/`login` anywhere in
name, id, placeholder or description) accepts it, but the source filter
checks the placeholder only for `user` and `email` and the detector's
username-candidate set stays empty. -/
theorem username_vocab_cex :
    specUsernameCandidate elC8 = true ∧ isUsernameInput elC8 = false ∧
    crC8.elements.filter isUsernameInput = [] :=
  ⟨by decide, by decide, by decide⟩

/-- C8 (amended): a text/email input is a username candidate iff
`user`/`email`/`login` occurs case-insensitively in its name or id, or
`user`/`email` occurs in its placeholder, or `username`/`email` occurs in
its description. -/
theorem username_vocab_amended (el : ElementInfo) :
    isUsernameInput el = true ↔
      (el.type = "input" ∧
       (attrIs el "type" "text" = true ∨ attrIs el "type" "email" = true) ∧
       amendedUsernameVocab el = true) := by
  simp only [isUsernameInput, amendedUsernameVocab, descContains,
    List.any_cons, List.any_nil, Bool.and_eq_true, Bool.or_eq_true,
    beq_iff_eq, Bool.or_false]
  tauto

/-- Witness for C8 (amended) at the username fixture `elUserW`. -/
theorem username_vocab_amended_witness :
    elUserW.type = "input" ∧
    (attrIs elUserW "type" "text" = true ∨ attrIs elUserW "type" "email" = true) ∧
    amendedUsernameVocab elUserW = true :=
  (username_vocab_amended elUserW).mp (by decide)
